import Mathlib

/-!
Verification of the booking lifecycle, statistics aggregation and search
filter logic of the churrasco marketplace app.

The TypeScript screens are shallowly embedded: each piece of in-memory
logic (status update, tab filters, analytics aggregation, dashboard stats,
service search) becomes a pure Lean function over the record types that
mirror the screens' interfaces.  JavaScript `Date` values are abstracted
as an `EventDate` record carrying the absolute ordering key (`time`) and
the calendar fields (`year`, `month`, with `month` 0-based as in
`Date.getMonth`).  JavaScript numbers holding prices are modelled as `Int`;
the percentage `completionRate` is modelled as `ℚ`.
-/

/-- The booking status union type
`'pending' | 'confirmed' | 'cancelled' | 'completed'`. -/
inductive BookingStatus where
  | pending
  | confirmed
  | cancelled
  | completed
deriving DecidableEq

/-- The joined `services ( title, duration_hours )` record on a booking. -/
structure ServiceInfo where
  title : String
  duration_hours : Int
deriving DecidableEq

/-- Abstraction of a parsed JavaScript `Date`: `time` is the absolute
ordering key used by `>=` comparisons, `year`/`month` are `getFullYear()`
and `getMonth()` (0-based). -/
structure EventDate where
  time : Int
  year : Int
  month : Int
deriving DecidableEq

/-- A booking row as fetched by the screens (fields used by the embedded
logic; the joined client/professional profile is display-only and not
consumed by any aggregation). -/
structure Booking where
  id : String
  created_at : Int
  event_date : EventDate
  event_time : String
  guests_count : Int
  location : String
  status : BookingStatus
  total_price : Int
  notes : Option String
  services : Option ServiceInfo
deriving DecidableEq

/-! ## Booking lifecycle (professional bookings screen and client bookings
screen) -/

/-- `updateBookingStatus` of the professional bookings screen: issues
`update({ status, updated_at }).eq('id', bookingId)` against the stored
bookings, with no validation of the current status.  Modelled as the
effect of that write on the store: every row whose id matches gets the
requested status, every other row is untouched. -/
def updateBookingStatus (store : List Booking) (bookingId : String)
    (status : BookingStatus) : List Booking :=
  store.map (fun b => if b.id = bookingId then { b with status := status } else b)

/-- The status transitions offered by the action buttons of
`renderBookingCard` on the professional bookings screen: a `pending` card
shows `Recusar` (→ cancelled) and `Aceitar` (→ confirmed), a `confirmed`
card shows `Finalizar` (→ completed), other cards show no action. -/
def proCardTransitions : BookingStatus → List BookingStatus
  | .pending => [.cancelled, .confirmed]
  | .confirmed => [.completed]
  | _ => []

/-- An action button of a booking card: its label and the status its
`onPress` handler writes, `none` when the button has no handler. -/
structure CardAction where
  label : String
  writesStatus : Option BookingStatus
deriving DecidableEq

/-- The action buttons rendered by `renderBookingCard` on the client
bookings screen: a `pending` card shows `Cancelar` and `Contatar`, both
without an `onPress` handler; every other card shows no action. -/
def clientCardActions : BookingStatus → List CardAction
  | .pending => [⟨"Cancelar", none⟩, ⟨"Contatar", none⟩]
  | _ => []

/-- Modelled from the spec: the legal transition table of §4.1, absent
from the code (the store performs no such validation and neither does
`updateBookingStatus`).  Used to compare the code's behaviour against
the table. -/
def specLegalTransition : BookingStatus → BookingStatus → Bool
  | .pending, .confirmed => true
  | .pending, .cancelled => true
  | .confirmed, .completed => true
  | .confirmed, .cancelled => true
  | _, _ => false

/-- `isUpcoming` of the client bookings screen:
`new Date(date) >= new Date()`. -/
def isUpcoming (now : EventDate) (d : EventDate) : Bool :=
  decide (now.time ≤ d.time)

/-- The predicate of the `upcoming` tab of `filteredBookings` on the
client bookings screen. -/
def upcomingPred (now : EventDate) (b : Booking) : Bool :=
  isUpcoming now b.event_date && !(b.status == .completed) && !(b.status == .cancelled)

/-- The predicate of the `past` tab of `filteredBookings` on the client
bookings screen. -/
def pastPred (now : EventDate) (b : Booking) : Bool :=
  !isUpcoming now b.event_date || b.status == .completed || b.status == .cancelled

/-! ## Statistics aggregation (`loadAnalyticsData` of the analytics
screen) -/

/-- `bookings?.filter(b => b.status === 'completed')`. -/
def completedBookings (bs : List Booking) : List Booking :=
  bs.filter (fun b => b.status == .completed)

/-- `completedBookings.reduce((sum, b) => sum + b.total_price, 0)`. -/
def totalRevenue (bs : List Booking) : Int :=
  (completedBookings bs).foldl (fun sum b => sum + b.total_price) 0

/-- `totalBookings > 0 ? (completedBookings.length / totalBookings) * 100 : 0`. -/
def completionRate (bs : List Booking) : ℚ :=
  if 0 < bs.length then
    (((completedBookings bs).length : ℚ) / (bs.length : ℚ)) * 100
  else 0

/-- `(currentDate.getFullYear() - bookingDate.getFullYear()) * 12 +
(currentDate.getMonth() - bookingDate.getMonth())`. -/
def monthDiff (now : EventDate) (d : EventDate) : Int :=
  (now.year - d.year) * 12 + (now.month - d.month)

/-- `monthlyRevenue[i] += p` on a bucket array. -/
def bump : List Int → Nat → Int → List Int
  | [], _, _ => []
  | x :: xs, 0, p => (x + p) :: xs
  | x :: xs, n + 1, p => x :: bump xs n p

/-- The body of the `completedBookings.forEach` loop filling the 6 monthly
revenue buckets: `if (monthDiff >= 0 && monthDiff < 6)
monthlyRevenue[5 - monthDiff] += booking.total_price`. -/
def monthlyStep (now : EventDate) (buckets : List Int) (b : Booking) : List Int :=
  if 0 ≤ monthDiff now b.event_date ∧ monthDiff now b.event_date < 6 then
    bump buckets (5 - monthDiff now b.event_date).toNat b.total_price
  else buckets

/-- `monthlyRevenue`: start from `Array(6).fill(0)` and fold the completed
bookings through the bucket-updating loop body. -/
def monthlyRevenue (now : EventDate) (bs : List Booking) : List Int :=
  (completedBookings bs).foldl (monthlyStep now) (List.replicate 6 0)

/-- `booking.services?.title || 'Serviço de Churrasco'`: the fallback also
fires on an empty title, since `''` is falsy in JavaScript. -/
def resolvedTitle (b : Booking) : String :=
  match b.services with
  | some s => if s.title = "" then "Serviço de Churrasco" else s.title
  | none => "Serviço de Churrasco"

/-- The body of the `serviceStats[serviceTitle]` accumulation: bump the
count and revenue of the first entry with the given title, or append a
fresh entry when the title is not yet a key.  The association list keeps
the object's insertion order. -/
def addStat : List (String × Nat × Int) → String → Int → List (String × Nat × Int)
  | [], t, p => [(t, 1, p)]
  | (t', c, r) :: rest, t, p =>
    if t' = t then (t', c + 1, r + p) :: rest
    else (t', c, r) :: addStat rest t p

/-- The `serviceStats` object after the `completedBookings.forEach` loop,
as an association list in insertion order. -/
def serviceStats (bs : List Booking) : List (String × Nat × Int) :=
  (completedBookings bs).foldl
    (fun m b => addStat m (resolvedTitle b) b.total_price) []

/-- The list of keys of the `serviceStats` association list. -/
def statKeys (m : List (String × Nat × Int)) : List String :=
  m.map Prod.fst

/-- Number of bookings in `l` whose resolved service title is `t` (the
spec-side per-title booking count). -/
def titleCount (l : List Booking) (t : String) : Nat :=
  (l.filter (fun b => resolvedTitle b == t)).length

/-- Sum of `total_price` over the bookings in `l` whose resolved service
title is `t` (the spec-side per-title revenue). -/
def titleRevenue (l : List Booking) (t : String) : Int :=
  ((l.filter (fun b => resolvedTitle b == t)).map Booking.total_price).sum

/-- One entry of `topServices`. -/
structure ServiceStat where
  title : String
  bookings : Nat
  revenue : Int
deriving DecidableEq

/-- The comparator `(a, b) => b.revenue - a.revenue` of the `topServices`
sort, as the relation it sorts by. -/
def revenueGE (a b : ServiceStat) : Prop :=
  b.revenue ≤ a.revenue

instance : DecidableRel revenueGE :=
  fun a b => inferInstanceAs (Decidable (b.revenue ≤ a.revenue))

instance : IsTotal ServiceStat revenueGE :=
  ⟨fun a b => le_total b.revenue a.revenue⟩

instance : IsTrans ServiceStat revenueGE :=
  ⟨fun _ _ _ h1 h2 => le_trans h2 h1⟩

/-- `Object.entries(serviceStats).map(...).sort((a, b) => b.revenue -
a.revenue).slice(0, 5)`. -/
def topServices (bs : List Booking) : List ServiceStat :=
  (((serviceStats bs).map (fun p => ServiceStat.mk p.1 p.2.1 p.2.2)).insertionSort
    revenueGE).take 5

/-! ## Professional home dashboard (`loadDashboardData`) -/

/-- The dashboard's fetch: all the professional's bookings ordered by
`created_at` descending, limited to 5 rows. -/
def dashboardBookings (all : List Booking) : List Booking :=
  (all.insertionSort (fun a b => b.created_at ≤ a.created_at)).take 5

/-- `totalBookings` of the dashboard stats: length of the fetched list. -/
def dashTotalBookings (all : List Booking) : Nat :=
  (dashboardBookings all).length

/-- `pendingBookings`: count of fetched rows with status `pending`. -/
def dashPendingBookings (all : List Booking) : Nat :=
  ((dashboardBookings all).filter (fun b => b.status == .pending)).length

/-- The dashboard's monthly-revenue predicate:
`bookingDate.getMonth() === currentMonth && bookingDate.getFullYear() ===
currentYear && (b.status === 'confirmed' || b.status === 'completed')`. -/
def dashRevenuePred (now : EventDate) (b : Booking) : Bool :=
  b.event_date.month == now.month && b.event_date.year == now.year &&
    (b.status == .confirmed || b.status == .completed)

/-- `monthlyRevenue` of the dashboard stats: filter the fetched rows by
`dashRevenuePred` and reduce their `total_price`. -/
def dashMonthlyRevenue (now : EventDate) (all : List Booking) : Int :=
  ((dashboardBookings all).filter (dashRevenuePred now)).foldl
    (fun sum b => sum + b.total_price) 0

/-! ## Search/filter logic (`filterServices` of the search screen) -/

/-- The joined `profiles ( full_name, avatar_url )` record on a service. -/
structure ProfilePeek where
  full_name : String
  avatar_url : Option String
deriving DecidableEq

/-- A service row as fetched by the search screen. -/
structure Service where
  id : String
  title : String
  description : String
  price_from : Int
  price_to : Option Int
  location : String
  max_guests : Int
  profiles : Option ProfilePeek
deriving DecidableEq

/-- Whether the first list of characters is an initial segment of the
second. -/
def startsWithChars : List Char → List Char → Bool
  | [], _ => true
  | _ :: _, [] => false
  | a :: as, b :: bs => a == b && startsWithChars as bs

/-- Whether the second list of characters occurs contiguously somewhere in
the first. -/
def containsChars : List Char → List Char → Bool
  | [], needle => startsWithChars needle []
  | c :: rest, needle => startsWithChars needle (c :: rest) || containsChars rest needle

/-- `hay.toLowerCase().includes(needle.toLowerCase())`, on the character
lists of the two strings. -/
def strIncludesLower (hay needle : String) : Bool :=
  containsChars (hay.data.map Char.toLower) (needle.data.map Char.toLower)

/-- The text predicate of `filterServices`: case-insensitive substring
match against title, description, location or the owner's display name
(`service.profiles?.full_name` is falsy when the join is absent). -/
def matchesQuery (q : String) (s : Service) : Bool :=
  strIncludesLower s.title q || strIncludesLower s.description q ||
    strIncludesLower s.location q ||
    (match s.profiles with
     | some p => strIncludesLower p.full_name q
     | none => false)

/-- The characters of `searchQuery.trim()`: leading and trailing
whitespace removed. -/
def trimmedChars (q : String) : List Char :=
  ((q.data.dropWhile Char.isWhitespace).reverse.dropWhile Char.isWhitespace).reverse

/-- The truthiness test `if (searchQuery.trim())`: a string is falsy
exactly when it is empty. -/
def queryIsBlank (q : String) : Bool :=
  trimmedChars q == []

/-- The text-search stage of `filterServices`: skipped when
`searchQuery.trim()` is falsy. -/
def textFiltered (q : String) (services : List Service) : List Service :=
  if queryIsBlank q then services else services.filter (matchesQuery q)

/-- `service.price_from <= 500` (the `budget` toggle). -/
def budgetPred (s : Service) : Bool :=
  decide (s.price_from ≤ 500)

/-- `service.price_from >= 800` (the `premium` toggle). -/
def premiumPred (s : Service) : Bool :=
  decide (800 ≤ s.price_from)

/-- `filterServices` of the search screen: text stage first, then the
`budget` narrowing when selected, then the `premium` narrowing when
selected (the `nearby` and `available` toggles have no predicate in the
code). -/
def filterServices (q : String) (selectedFilters : List String)
    (services : List Service) : List Service :=
  let f1 := textFiltered q services
  let f2 := if "budget" ∈ selectedFilters then f1.filter budgetPred else f1
  if "premium" ∈ selectedFilters then f2.filter premiumPred else f2

/-- A sample stored booking used in concrete evaluations. -/
def sampleBooking : Booking :=
  { id := "b1"
    created_at := 0
    event_date := { time := 0, year := 2026, month := 9 }
    event_time := "18:00:00"
    guests_count := 10
    location := "Rua A"
    status := .completed
    total_price := 500
    notes := none
    services := none }

/-- A sample current date: October 2026 (`getMonth() = 9`). -/
def nowSample : EventDate :=
  { time := 1000, year := 2026, month := 9 }

/-- A completed booking dated in the current sample month, price 500. -/
def bookingCompleted500 : Booking :=
  { sampleBooking with
    id := "b2"
    total_price := 500
    services := some { title := "Churrasco Premium", duration_hours := 4 } }

/-- A pending booking, price 300. -/
def bookingPending300 : Booking :=
  { sampleBooking with id := "b3", status := .pending, total_price := 300 }

/-- A completed booking dated two months before the sample month,
price 200. -/
def bookingCompleted200 : Booking :=
  { sampleBooking with
    id := "b4"
    total_price := 200
    event_date := { time := 0, year := 2026, month := 7 } }

/-- A completed booking dated one month after the sample month (future
event, negative `monthDiff`). -/
def bookingFutureCompleted : Booking :=
  { sampleBooking with
    id := "b5"
    total_price := 900
    event_date := { time := 2000, year := 2026, month := 10 } }

/-- A confirmed booking dated in the current sample month, price 700. -/
def bookingConfirmed700 : Booking :=
  { sampleBooking with id := "b6", status := .confirmed, total_price := 700 }

/-- A sample service priced from 400. -/
def svc400 : Service :=
  { id := "s1"
    title := "Churrasco Básico"
    description := "Carnes e acompanhamentos"
    price_from := 400
    price_to := none
    location := "São Paulo"
    max_guests := 30
    profiles := some { full_name := "Carlos", avatar_url := none } }

/-- A sample service priced from 900. -/
def svc900 : Service :=
  { svc400 with id := "s2", title := "Churrasco Premium", price_from := 900 }

/-- A sample service priced from 600. -/
def svc600 : Service :=
  { svc400 with id := "s3", title := "Churrasco Completo", price_from := 600 }

/-! ## Helper lemmas -/

lemma foldl_add_total_price (l : List Booking) :
    ∀ init : Int, l.foldl (fun s b => s + b.total_price) init
      = init + (l.map Booking.total_price).sum := by
  induction l with
  | nil => intro init; simp
  | cons b l ih =>
    intro init
    rw [List.foldl_cons, ih]
    simp [add_assoc]

lemma bump_length (l : List Int) : ∀ (i : Nat) (p : Int), (bump l i p).length = l.length := by
  induction l with
  | nil => intro i p; simp [bump]
  | cons x xs ih => intro i p; cases i <;> simp [bump, ih]

lemma bump_getD (l : List Int) :
    ∀ (i j : Nat) (p : Int), j < l.length →
      (bump l i p).getD j 0 = l.getD j 0 + if i = j then p else 0 := by
  induction l with
  | nil => intro i j p hj; simp at hj
  | cons x xs ih =>
    intro i j p hj
    cases i with
    | zero =>
      cases j with
      | zero => simp [bump]
      | succ k => simp [bump]
    | succ n =>
      cases j with
      | zero => simp [bump]
      | succ k =>
        have hk : k < xs.length := by simpa using hj
        have hb : bump (x :: xs) (n + 1) p = x :: bump xs n p := rfl
        rw [hb, List.getD_cons_succ, List.getD_cons_succ, ih n k p hk]
        by_cases h : n = k
        · have h2 : n + 1 = k + 1 := by omega
          rw [if_pos h, if_pos h2]
        · have h2 : ¬n + 1 = k + 1 := by omega
          rw [if_neg h, if_neg h2]

lemma monthlyStep_length (now : EventDate) (buckets : List Int) (b : Booking) :
    (monthlyStep now buckets b).length = buckets.length := by
  unfold monthlyStep
  split <;> simp [bump_length]

lemma monthlyStep_getD (now : EventDate) (buckets : List Int) (b : Booking) (j : Nat)
    (h6 : buckets.length = 6) (hj : j < 6) :
    (monthlyStep now buckets b).getD j 0 =
      buckets.getD j 0 +
        if monthDiff now b.event_date = 5 - (j : Int) then b.total_price else 0 := by
  unfold monthlyStep
  by_cases h : 0 ≤ monthDiff now b.event_date ∧ monthDiff now b.event_date < 6
  · rw [if_pos h, bump_getD _ _ _ _ (by omega)]
    by_cases he : monthDiff now b.event_date = 5 - (j : Int)
    · have ht : (5 - monthDiff now b.event_date).toNat = j := by omega
      rw [if_pos ht, if_pos he]
    · have ht : ¬(5 - monthDiff now b.event_date).toNat = j := by omega
      rw [if_neg ht, if_neg he]
  · rw [if_neg h]
    have he : ¬monthDiff now b.event_date = 5 - (j : Int) := by omega
    rw [if_neg he, add_zero]

lemma monthly_foldl_length (now : EventDate) (l : List Booking) :
    ∀ acc : List Int, (l.foldl (monthlyStep now) acc).length = acc.length := by
  induction l with
  | nil => intro acc; simp
  | cons b l ih =>
    intro acc
    rw [List.foldl_cons, ih, monthlyStep_length]

lemma monthly_foldl_getD (now : EventDate) (l : List Booking) :
    ∀ (acc : List Int), acc.length = 6 → ∀ j : Nat, j < 6 →
      (l.foldl (monthlyStep now) acc).getD j 0 =
        acc.getD j 0 +
          ((l.filter (fun b => monthDiff now b.event_date == 5 - (j : Int))).map
            Booking.total_price).sum := by
  induction l with
  | nil => intro acc _ j _; simp
  | cons b l ih =>
    intro acc hlen j hj
    rw [List.foldl_cons,
      ih (monthlyStep now acc b) (by rw [monthlyStep_length]; exact hlen) j hj,
      monthlyStep_getD now acc b j hlen hj]
    by_cases he : monthDiff now b.event_date = 5 - (j : Int)
    · simp [List.filter_cons, he, add_assoc]
    · simp [List.filter_cons, he]

/-! ## Claims about the statistics aggregator -/

/-- C3: for every list of booking records, `totalRevenue` is the sum of
`total_price` over exactly the records with status `completed`; a record
in any other status contributes nothing. -/
theorem C3_totalRevenue_completed_only (bs : List Booking) :
    totalRevenue bs
      = ((bs.filter (fun b => b.status == .completed)).map Booking.total_price).sum ∧
    ∀ b : Booking, b.status ≠ .completed → totalRevenue (b :: bs) = totalRevenue bs := by
  constructor
  · unfold totalRevenue completedBookings
    rw [foldl_add_total_price, zero_add]
  · intro b hb
    unfold totalRevenue completedBookings
    simp [List.filter_cons, hb]

/-- Witness for C3 at a concrete list: a `pending` booking contributes
nothing to `totalRevenue`. -/
theorem C3_witness :
    totalRevenue [bookingPending300, bookingCompleted500]
      = totalRevenue [bookingCompleted500] ∧
    totalRevenue [bookingCompleted500] = 500 :=
  ⟨(C3_totalRevenue_completed_only [bookingCompleted500]).2 bookingPending300 (by decide),
    by decide⟩

/-- C4: `completionRate` lies in `[0, 100]`, is `0` on the empty list, and
equals `completedCount / totalBookings * 100` on a non-empty list. -/
theorem C4_completionRate_bounds (bs : List Booking) :
    0 ≤ completionRate bs ∧ completionRate bs ≤ 100 ∧
    (bs = [] → completionRate bs = 0) ∧
    (0 < bs.length →
      completionRate bs = ((completedBookings bs).length : ℚ) / (bs.length : ℚ) * 100) := by
  by_cases h : 0 < bs.length
  · have hlen : (completedBookings bs).length ≤ bs.length :=
      List.length_filter_le _ bs
    have hle : ((completedBookings bs).length : ℚ) ≤ (bs.length : ℚ) := by
      exact_mod_cast hlen
    have hdiv1 : ((completedBookings bs).length : ℚ) / (bs.length : ℚ) ≤ 1 :=
      div_le_one_of_le₀ hle (Nat.cast_nonneg _)
    have hdiv0 : 0 ≤ ((completedBookings bs).length : ℚ) / (bs.length : ℚ) :=
      div_nonneg (Nat.cast_nonneg _) (Nat.cast_nonneg _)
    refine ⟨?_, ?_, ?_, ?_⟩
    · simp only [completionRate, if_pos h]
      exact mul_nonneg hdiv0 (by norm_num)
    · simp only [completionRate, if_pos h]
      calc ((completedBookings bs).length : ℚ) / (bs.length : ℚ) * 100
          ≤ 1 * 100 := mul_le_mul_of_nonneg_right hdiv1 (by norm_num)
        _ = 100 := one_mul 100
    · intro hnil
      rw [hnil] at h
      simp at h
    · intro _
      simp only [completionRate, if_pos h]
  · have hrate : completionRate bs = 0 := by
      simp only [completionRate, if_neg h]
    exact ⟨by rw [hrate], by rw [hrate]; norm_num, fun _ => hrate, fun hc => absurd hc h⟩

/-- Witness for C4: the empty list yields `0`; one completed booking out
of two yields `50`. -/
theorem C4_witness :
    completionRate [] = 0 ∧
    completionRate [bookingCompleted500, bookingPending300] = 50 := by
  constructor
  · exact (C4_completionRate_bounds []).2.2.1 rfl
  · have h := (C4_completionRate_bounds [bookingCompleted500, bookingPending300]).2.2.2
      (by norm_num)
    rw [h]
    norm_num [show (completedBookings [bookingCompleted500, bookingPending300]).length = 1
      from rfl]

/-- C5: `monthlyRevenue` has exactly 6 buckets; bucket `j` holds the sum
of `total_price` over the completed bookings whose `monthDiff` equals
`5 - j` (so a booking lands in bucket `5 - monthDiff` exactly when
`0 ≤ monthDiff < 6`); a completed booking with `monthDiff` outside
`[0, 6)` — in particular a future-dated one — contributes to no bucket. -/
theorem C5_monthlyRevenue_buckets (now : EventDate) (bs : List Booking) :
    (monthlyRevenue now bs).length = 6 ∧
    (∀ j : Nat, j < 6 →
      (monthlyRevenue now bs).getD j 0 =
        (((completedBookings bs).filter
            (fun b => monthDiff now b.event_date == 5 - (j : Int))).map
          Booking.total_price).sum) ∧
    (∀ b : Booking, b.status = .completed →
      (monthDiff now b.event_date < 0 ∨ 6 ≤ monthDiff now b.event_date) →
      monthlyRevenue now (b :: bs) = monthlyRevenue now bs) := by
  refine ⟨?_, ?_, ?_⟩
  · unfold monthlyRevenue
    rw [monthly_foldl_length]
    simp
  · intro j hj
    unfold monthlyRevenue
    rw [monthly_foldl_getD now _ _ (by simp) j hj]
    have hz : (List.replicate 6 (0 : Int)).getD j 0 = 0 := by
      interval_cases j <;> rfl
    rw [hz, zero_add]
  · intro b hb hout
    have hstep : ∀ acc : List Int, monthlyStep now acc b = acc := by
      intro acc
      unfold monthlyStep
      rw [if_neg (by omega)]
    unfold monthlyRevenue completedBookings
    simp [List.filter_cons, hb, hstep]

/-- Witness for C5: the sample completed booking dated in the current
month fills the last bucket; a future-dated completed booking leaves the
buckets untouched. -/
theorem C5_witness :
    (monthlyRevenue nowSample [bookingCompleted500]).getD 5 0 = 500 ∧
    monthlyRevenue nowSample [bookingFutureCompleted] = monthlyRevenue nowSample [] := by
  constructor
  · have h := (C5_monthlyRevenue_buckets nowSample [bookingCompleted500]).2.1 5 (by norm_num)
    rw [h]
    decide
  · exact (C5_monthlyRevenue_buckets nowSample []).2.2 bookingFutureCompleted rfl (by decide)

/-! ## Helper lemmas for the `serviceStats` grouping -/

lemma statKeys_cons (t' : String) (c : Nat) (r : Int) (m : List (String × Nat × Int)) :
    statKeys ((t', c, r) :: m) = t' :: statKeys m :=
  rfl

lemma mem_statKeys_of_mem {m : List (String × Nat × Int)} {s : String} {c : Nat} {r : Int}
    (h : (s, c, r) ∈ m) : s ∈ statKeys m :=
  List.mem_map_of_mem Prod.fst h

lemma statKeys_addStat (m : List (String × Nat × Int)) (t : String) (p : Int) :
    statKeys (addStat m t p)
      = if t ∈ statKeys m then statKeys m else statKeys m ++ [t] := by
  induction m with
  | nil => simp [statKeys, addStat]
  | cons hd tl ih =>
    obtain ⟨t', c', r'⟩ := hd
    by_cases h : t' = t
    · subst h
      have h1 : addStat ((t', c', r') :: tl) t' p = (t', c' + 1, r' + p) :: tl := by
        simp [addStat]
      rw [h1, statKeys_cons, statKeys_cons, if_pos (List.mem_cons_self ..)]
    · have h1 : addStat ((t', c', r') :: tl) t p = (t', c', r') :: addStat tl t p := by
        simp [addStat, h]
      rw [h1, statKeys_cons, statKeys_cons, ih]
      by_cases h2 : t ∈ statKeys tl
      · rw [if_pos h2, if_pos (List.mem_cons_of_mem _ h2)]
      · have hmem : ¬t ∈ t' :: statKeys tl := by
          intro hc
          rcases List.mem_cons.mp hc with h3 | h3
          · exact h h3.symm
          · exact h2 h3
        rw [if_neg h2, if_neg hmem]
        rfl

lemma mem_statKeys_addStat (m : List (String × Nat × Int)) (t : String) (p : Int) :
    t ∈ statKeys (addStat m t p) := by
  rw [statKeys_addStat]
  by_cases h : t ∈ statKeys m
  · rw [if_pos h]; exact h
  · rw [if_neg h]; simp

lemma statKeys_subset_addStat (m : List (String × Nat × Int)) (t : String) (p : Int) :
    ∀ s, s ∈ statKeys m → s ∈ statKeys (addStat m t p) := by
  intro s hs
  rw [statKeys_addStat]
  by_cases h : t ∈ statKeys m
  · rw [if_pos h]; exact hs
  · rw [if_neg h]; exact List.mem_append_left _ hs

lemma nodup_statKeys_addStat {m : List (String × Nat × Int)} (t : String) (p : Int)
    (h : (statKeys m).Nodup) : (statKeys (addStat m t p)).Nodup := by
  rw [statKeys_addStat]
  by_cases hm : t ∈ statKeys m
  · rw [if_pos hm]; exact h
  · rw [if_neg hm]
    simp [List.nodup_append, h, hm]

lemma addStat_mem_char {m : List (String × Nat × Int)} {t : String} {p : Int}
    (hnd : (statKeys m).Nodup) :
    ∀ s c r, (s, c, r) ∈ addStat m t p →
      (s ≠ t ∧ (s, c, r) ∈ m) ∨
      (s = t ∧ ∃ c₀ r₀, (t, c₀, r₀) ∈ m ∧ c = c₀ + 1 ∧ r = r₀ + p) ∨
      (s = t ∧ ¬t ∈ statKeys m ∧ c = 1 ∧ r = p) := by
  induction m with
  | nil =>
    intro s c r hmem
    have heq : (s, c, r) = (t, 1, p) := by
      simpa [addStat] using hmem
    obtain ⟨h1, h2, h3⟩ : s = t ∧ c = 1 ∧ r = p := by
      simpa [Prod.ext_iff] using heq
    exact Or.inr (Or.inr ⟨h1, List.not_mem_nil t, h2, h3⟩)
  | cons hd tl ih =>
    obtain ⟨t', c', r'⟩ := hd
    have hnd2 : (statKeys tl).Nodup := by
      rw [statKeys_cons] at hnd
      exact hnd.of_cons
    have hhead : ¬t' ∈ statKeys tl := by
      rw [statKeys_cons] at hnd
      exact (List.nodup_cons.mp hnd).1
    intro s c r hmem
    by_cases h : t' = t
    · subst h
      have h1 : addStat ((t', c', r') :: tl) t' p = (t', c' + 1, r' + p) :: tl := by
        simp [addStat]
      rw [h1] at hmem
      rcases List.mem_cons.mp hmem with heq | htl
      · obtain ⟨hs, hc, hr⟩ : s = t' ∧ c = c' + 1 ∧ r = r' + p := by
          simpa [Prod.ext_iff] using heq
        exact Or.inr (Or.inl ⟨hs, c', r', List.mem_cons_self .., hc, hr⟩)
      · refine Or.inl ⟨?_, List.mem_cons_of_mem _ htl⟩
        intro hst
        exact hhead (hst ▸ mem_statKeys_of_mem htl)
    · have h1 : addStat ((t', c', r') :: tl) t p = (t', c', r') :: addStat tl t p := by
        simp [addStat, h]
      rw [h1] at hmem
      rcases List.mem_cons.mp hmem with heq | htl
      · obtain ⟨hs, hc, hr⟩ : s = t' ∧ c = c' ∧ r = r' := by
          simpa [Prod.ext_iff] using heq
        refine Or.inl ⟨fun hst => h (hs.symm.trans hst), ?_⟩
        rw [hs, hc, hr]
        exact List.mem_cons_self ..
      · rcases ih hnd2 s c r htl with ⟨hs, hm⟩ | ⟨hs, c₀, r₀, hm, hc, hr⟩ | ⟨hs, hk, hc, hr⟩
        · exact Or.inl ⟨hs, List.mem_cons_of_mem _ hm⟩
        · exact Or.inr (Or.inl ⟨hs, c₀, r₀, List.mem_cons_of_mem _ hm, hc, hr⟩)
        · refine Or.inr (Or.inr ⟨hs, ?_, hc, hr⟩)
          intro hk2
          rw [statKeys_cons] at hk2
          rcases List.mem_cons.mp hk2 with h3 | h3
          · exact h h3.symm
          · exact hk h3

lemma titleCount_cons_eq {b : Booking} {s : String} (l : List Booking)
    (h : resolvedTitle b = s) : titleCount (b :: l) s = titleCount l s + 1 := by
  simp [titleCount, List.filter_cons, h]

lemma titleCount_cons_ne {b : Booking} {s : String} (l : List Booking)
    (h : resolvedTitle b ≠ s) : titleCount (b :: l) s = titleCount l s := by
  simp [titleCount, List.filter_cons, h]

lemma titleRevenue_cons_eq {b : Booking} {s : String} (l : List Booking)
    (h : resolvedTitle b = s) :
    titleRevenue (b :: l) s = b.total_price + titleRevenue l s := by
  simp [titleRevenue, List.filter_cons, h]

lemma titleRevenue_cons_ne {b : Booking} {s : String} (l : List Booking)
    (h : resolvedTitle b ≠ s) : titleRevenue (b :: l) s = titleRevenue l s := by
  simp [titleRevenue, List.filter_cons, h]

lemma foldl_addStat_char (l : List Booking) :
    ∀ m : List (String × Nat × Int), (statKeys m).Nodup →
      (statKeys (l.foldl (fun m' b => addStat m' (resolvedTitle b) b.total_price) m)).Nodup ∧
      ∀ s c r, (s, c, r) ∈ l.foldl (fun m' b => addStat m' (resolvedTitle b) b.total_price) m →
        (∃ c₀ r₀, (s, c₀, r₀) ∈ m ∧ c = c₀ + titleCount l s ∧ r = r₀ + titleRevenue l s) ∨
        (¬s ∈ statKeys m ∧ c = titleCount l s ∧ r = titleRevenue l s) := by
  induction l with
  | nil =>
    intro m hnd
    refine ⟨hnd, ?_⟩
    intro s c r hmem
    exact Or.inl ⟨c, r, hmem, by simp [titleCount], by simp [titleRevenue]⟩
  | cons b l ih =>
    intro m hnd
    rw [List.foldl_cons]
    have hnd1 := nodup_statKeys_addStat (resolvedTitle b) b.total_price hnd
    obtain ⟨ihnd, ihchar⟩ := ih (addStat m (resolvedTitle b) b.total_price) hnd1
    refine ⟨ihnd, ?_⟩
    intro s c r hmem
    rcases ihchar s c r hmem with ⟨c₁, r₁, hm1, hc1, hr1⟩ | ⟨hk1, hc1, hr1⟩
    · rcases addStat_mem_char hnd s c₁ r₁ hm1 with
        ⟨hs, hm⟩ | ⟨hs, c₀, r₀, hm, hc0, hr0⟩ | ⟨hs, hk, hc0, hr0⟩
      · left
        refine ⟨c₁, r₁, hm, ?_, ?_⟩
        · rw [hc1, titleCount_cons_ne l (fun hh => hs hh.symm)]
        · rw [hr1, titleRevenue_cons_ne l (fun hh => hs hh.symm)]
      · subst hs
        left
        refine ⟨c₀, r₀, hm, ?_, ?_⟩
        · rw [titleCount_cons_eq l rfl]
          omega
        · rw [titleRevenue_cons_eq l rfl]
          omega
      · subst hs
        right
        refine ⟨hk, ?_, ?_⟩
        · rw [titleCount_cons_eq l rfl]
          omega
        · rw [titleRevenue_cons_eq l rfl]
          omega
    · have hsm : ¬s ∈ statKeys m := fun hc =>
        hk1 (statKeys_subset_addStat m (resolvedTitle b) b.total_price s hc)
      have hstb : s ≠ resolvedTitle b := by
        intro hh
        exact hk1 (hh ▸ mem_statKeys_addStat m (resolvedTitle b) b.total_price)
      right
      refine ⟨hsm, ?_, ?_⟩
      · rw [hc1, titleCount_cons_ne l (fun hh => hstb hh.symm)]
      · rw [hr1, titleRevenue_cons_ne l (fun hh => hstb hh.symm)]

lemma serviceStats_entry (bs : List Booking) :
    ∀ s c r, (s, c, r) ∈ serviceStats bs →
      c = titleCount (completedBookings bs) s ∧ r = titleRevenue (completedBookings bs) s := by
  intro s c r hmem
  have hmem2 : (s, c, r) ∈
      (completedBookings bs).foldl
        (fun m' b => addStat m' (resolvedTitle b) b.total_price) [] := hmem
  rcases (foldl_addStat_char (completedBookings bs) [] (by simp [statKeys])).2 s c r hmem2 with
    ⟨c₀, r₀, hm, _, _⟩ | ⟨_, hc, hr⟩
  · exact absurd hm (List.not_mem_nil _)
  · exact ⟨hc, hr⟩

/-- C6: `topServices` has at most 5 entries, is sorted non-increasing by
revenue, and each entry carries the count of completed bookings with its
(resolved) title and the sum of their `total_price`. -/
theorem C6_topServices_grouping (bs : List Booking) :
    (topServices bs).length ≤ 5 ∧
    List.Sorted revenueGE (topServices bs) ∧
    ∀ e ∈ topServices bs,
      e.bookings = titleCount (completedBookings bs) e.title ∧
      e.revenue = titleRevenue (completedBookings bs) e.title := by
  refine ⟨List.length_take_le 5 _, ?_, ?_⟩
  · have hs : List.Sorted revenueGE
        (((serviceStats bs).map (fun p => ServiceStat.mk p.1 p.2.1 p.2.2)).insertionSort
          revenueGE) :=
      List.sorted_insertionSort revenueGE _
    exact hs.sublist (List.take_sublist 5 _)
  · intro e he
    have he1 : e ∈ ((serviceStats bs).map
        (fun p => ServiceStat.mk p.1 p.2.1 p.2.2)).insertionSort revenueGE :=
      List.take_subset 5 _ he
    have he2 : e ∈ (serviceStats bs).map (fun p => ServiceStat.mk p.1 p.2.1 p.2.2) := by
      simpa using he1
    obtain ⟨⟨s, c, r⟩, hmem, heq⟩ := List.mem_map.mp he2
    have hchar := serviceStats_entry bs s c r hmem
    rw [← heq]
    exact ⟨hchar.1, hchar.2⟩

/-- Witness for C6: the single completed sample booking yields the single
entry with its title, count 1 and revenue 500. -/
theorem C6_witness :
    (⟨"Churrasco Premium", 1, 500⟩ : ServiceStat).bookings
        = titleCount (completedBookings [bookingCompleted500]) "Churrasco Premium" ∧
    (⟨"Churrasco Premium", 1, 500⟩ : ServiceStat).revenue
        = titleRevenue (completedBookings [bookingCompleted500]) "Churrasco Premium" :=
  (C6_topServices_grouping [bookingCompleted500]).2.2
    ⟨"Churrasco Premium", 1, 500⟩ (by decide)

/-! ## Claims about the booking lifecycle -/

/-- Counterexample to C1: `updateBookingStatus` performs no validation.
For a stored booking in the terminal state `completed`, requesting the
illegal transition to `confirmed` issues the write and mutates the stored
status, instead of being rejected. -/
theorem C1_counterexample :
    specLegalTransition .completed .confirmed = false ∧
    updateBookingStatus [sampleBooking] "b1" .confirmed
      = [{ sampleBooking with status := .confirmed }] ∧
    ¬({ sampleBooking with status := BookingStatus.confirmed }).status
        = sampleBooking.status := by
  refine ⟨rfl, ?_, by decide⟩
  decide

/-- C1 as amended: `updateBookingStatus` writes the requested status
unconditionally to every row with the matching id and leaves other rows
untouched; transition legality is enforced only upstream, by the
professional screen rendering action buttons exclusively for the
transitions of the legal table. -/
theorem C1_update_unvalidated_ui_gated (store : List Booking) (bookingId : String)
    (st : BookingStatus) :
    (∀ b ∈ store, b.id = bookingId →
      { b with status := st } ∈ updateBookingStatus store bookingId st) ∧
    (∀ b ∈ store, b.id ≠ bookingId → b ∈ updateBookingStatus store bookingId st) ∧
    (∀ s t : BookingStatus, t ∈ proCardTransitions s → specLegalTransition s t = true) := by
  refine ⟨?_, ?_, ?_⟩
  · intro b hb hid
    exact List.mem_map.mpr ⟨b, hb, by rw [if_pos hid]⟩
  · intro b hb hid
    exact List.mem_map.mpr ⟨b, hb, by rw [if_neg hid]⟩
  · intro s t ht
    cases s <;> cases t <;> simp_all [proCardTransitions, specLegalTransition]

/-- Witness for the amended C1 at a concrete store: the matching row gets
the requested status, and the professional-card transition
`pending → confirmed` is in the legal table. -/
theorem C1_witness :
    { sampleBooking with status := BookingStatus.confirmed }
        ∈ updateBookingStatus [sampleBooking] "b1" .confirmed ∧
    specLegalTransition .pending .confirmed = true :=
  ⟨(C1_update_unvalidated_ui_gated [sampleBooking] "b1" .confirmed).1 sampleBooking
      (by decide) rfl,
    (C1_update_unvalidated_ui_gated [] "b1" .confirmed).2.2 .pending .confirmed (by decide)⟩

/-- C2 fails on the code: on the client bookings screen a `confirmed`
booking gets no action button at all, and the `Cancelar` button of a
`pending` booking has no `onPress` handler, so the client can trigger no
transition to `cancelled`. -/
theorem C2_no_client_cancel_action :
    clientCardActions .confirmed = [] ∧
    (clientCardActions .pending).all (fun a => a.writesStatus == none) = true ∧
    (clientCardActions .pending).map CardAction.label = ["Cancelar", "Contatar"] := by
  decide

/-- C7: a booking is shown in the `upcoming` tab exactly when its event
date is not before the current date and its status is neither `completed`
nor `cancelled`; the `past` tab is the exact complement, so `completed`
and `cancelled` bookings are always history regardless of date. -/
theorem C7_upcoming_past_classification (now : EventDate) (b : Booking) :
    (upcomingPred now b = true ↔
      (now.time ≤ b.event_date.time ∧ b.status ≠ .completed ∧ b.status ≠ .cancelled)) ∧
    pastPred now b = !upcomingPred now b ∧
    ((b.status = .completed ∨ b.status = .cancelled) → pastPred now b = true) := by
  refine ⟨?_, ?_, ?_⟩
  · simp [upcomingPred, isUpcoming, and_assoc]
  · cases hu : isUpcoming now b.event_date <;>
      cases hc : b.status == BookingStatus.completed <;>
        cases hx : b.status == BookingStatus.cancelled <;>
          simp [upcomingPred, pastPred, hu, hc, hx]
  · intro h
    rcases h with h | h <;> simp [pastPred, h]

/-- Witness for C7: the completed sample booking is classified as history
even though its event date is in the future relative to a past `now`. -/
theorem C7_witness :
    pastPred { time := -50, year := 2026, month := 9 } sampleBooking = true :=
  (C7_upcoming_past_classification { time := -50, year := 2026, month := 9 }
    sampleBooking).2.2 (Or.inl rfl)

/-! ## Claims about the search filter and the dashboard -/

lemma filterServices_eq_filter (q : String) (sel : List String) (svcs : List Service) :
    filterServices q sel svcs = svcs.filter (fun s =>
      (if queryIsBlank q then true else matchesQuery q s) &&
        (if "budget" ∈ sel then budgetPred s else true) &&
        (if "premium" ∈ sel then premiumPred s else true)) := by
  unfold filterServices textFiltered
  by_cases hq : queryIsBlank q = true <;> by_cases hb : "budget" ∈ sel <;>
    by_cases hp : "premium" ∈ sel <;>
      simp [hq, hb, hp, List.filter_filter, Bool.and_comm, Bool.and_left_comm, Bool.and_assoc]

/-- C8: the filter narrows by the text predicate, then by each selected
toggle (`budget`: `price_from ≤ 500`, `premium`: `price_from ≥ 800`) as a
logical AND; on the `[400, 900, 600]` example with an empty query,
`budget` keeps only the 400 item, `premium` only the 900 item, and both
together keep nothing. -/
theorem C8_filter_pipeline (q : String) (sel : List String) (svcs : List Service) :
    (∀ s : Service, s ∈ filterServices q sel svcs ↔
      (s ∈ textFiltered q svcs ∧ ("budget" ∈ sel → s.price_from ≤ 500) ∧
        ("premium" ∈ sel → 800 ≤ s.price_from))) ∧
    filterServices "" ["budget"] [svc400, svc900, svc600] = [svc400] ∧
    filterServices "" ["premium"] [svc400, svc900, svc600] = [svc900] ∧
    filterServices "" ["budget", "premium"] [svc400, svc900, svc600] = [] := by
  refine ⟨?_, by decide, by decide, by decide⟩
  intro s
  unfold filterServices
  by_cases hb : "budget" ∈ sel <;> by_cases hp : "premium" ∈ sel <;>
    simp [hb, hp, List.mem_filter, budgetPred, premiumPred, and_assoc] <;>
      tauto

/-- Witness for C8: the 400-priced service passes the `budget`-only
pipeline. -/
theorem C8_witness :
    svc400 ∈ filterServices "" ["budget"] [svc400, svc900, svc600] :=
  ((C8_filter_pipeline "" ["budget"] [svc400, svc900, svc600]).1 svc400).mpr
    ⟨by decide, fun _ => by decide, fun h => absurd h (by decide)⟩

/-- C9: the search filter is idempotent, returns the input unchanged for
a blank query with no toggles, and always yields a subsequence of the
input (order-preserving, never reordering). -/
theorem C9_filter_algebra :
    (∀ (q : String) (sel : List String) (svcs : List Service),
      filterServices q sel (filterServices q sel svcs) = filterServices q sel svcs) ∧
    (∀ (q : String) (svcs : List Service), queryIsBlank q = true →
      filterServices q [] svcs = svcs) ∧
    (∀ (q : String) (sel : List String) (svcs : List Service),
      (filterServices q sel svcs).Sublist svcs) := by
  refine ⟨?_, ?_, ?_⟩
  · intro q sel svcs
    rw [filterServices_eq_filter, filterServices_eq_filter, List.filter_filter]
    exact List.filter_congr (fun a _ => Bool.and_self _)
  · intro q svcs hq
    rw [filterServices_eq_filter]
    refine List.filter_eq_self.mpr ?_
    intro s _
    simp [hq]
  · intro q sel svcs
    rw [filterServices_eq_filter]
    exact List.filter_sublist svcs

/-- Witness for C9: a whitespace-only query with no toggles returns the
input list unchanged. -/
theorem C9_witness :
    filterServices " " [] [svc400, svc900] = [svc400, svc900] :=
  C9_filter_algebra.2.1 " " [svc400, svc900] (by decide)

/-- C10: the dashboard works on at most the 5 most recently created
bookings, so its `totalBookings` and `pendingBookings` never exceed 5;
its monthly revenue sums `total_price` over fetched bookings of the
current calendar month with status `confirmed` or `completed` — unlike
the analytics aggregator, for which a `confirmed` booking contributes
nothing (`totalRevenue` 0, all 6 monthly buckets 0). -/
theorem C10_dashboard_stats (now : EventDate) (all : List Booking) :
    dashTotalBookings all ≤ 5 ∧
    dashPendingBookings all ≤ 5 ∧
    dashMonthlyRevenue now all
      = (((dashboardBookings all).filter (dashRevenuePred now)).map Booking.total_price).sum ∧
    (∀ b : Booking, b.status = .confirmed → dashRevenuePred now b = true →
      dashMonthlyRevenue now [b] = b.total_price ∧ totalRevenue [b] = 0 ∧
        monthlyRevenue now [b] = List.replicate 6 0) := by
  refine ⟨List.length_take_le 5 _, ?_, ?_, ?_⟩
  · calc dashPendingBookings all ≤ (dashboardBookings all).length :=
          List.length_filter_le _ _
      _ ≤ 5 := List.length_take_le 5 _
  · unfold dashMonthlyRevenue
    rw [foldl_add_total_price, zero_add]
  · intro b hst hpred
    have hdb : dashboardBookings [b] = [b] := rfl
    refine ⟨?_, ?_, ?_⟩
    · unfold dashMonthlyRevenue
      rw [hdb]
      simp [List.filter_cons, hpred]
    · unfold totalRevenue completedBookings
      simp [List.filter_cons, hst]
    · unfold monthlyRevenue completedBookings
      simp [List.filter_cons, hst]

/-- Witness for C10: a confirmed booking of the current sample month
counts 700 for the dashboard monthly revenue while contributing nothing
to the analytics aggregates. -/
theorem C10_witness :
    dashMonthlyRevenue nowSample [bookingConfirmed700] = 700 ∧
    totalRevenue [bookingConfirmed700] = 0 ∧
    monthlyRevenue nowSample [bookingConfirmed700] = List.replicate 6 0 :=
  (C10_dashboard_stats nowSample [bookingConfirmed700]).2.2.2 bookingConfirmed700 rfl
    (by decide)
